import Mathlib

/-!
Verification of the splink_link record-linkage pipeline.

The development shallowly embeds the two Python source modules:

* src/app.py — CSV column standardization and the hybrid field projector
  create_comparison_df, which pairs the fixed SBA identity fields with every
  GL description field;
* src/record_linker.py — the SBAGLLinker orchestrator: construction, splink
  settings (comparison ladders, blocking rules, deterministic rules), the
  ordered training call sequence, and threshold-filtered match prediction.

Data frames are modelled as ordered association lists of named columns whose
cells are nullable strings, mirroring how pandas holds the text fields this
pipeline compares.  Fallible pandas column access is modelled with Except.
-/

/-- Cell value of a data frame: a nullable string (pandas NaN is none). -/
abbrev Val := Option String

/-- Model of a pandas DataFrame: an ordered association list of named columns. -/
abbrev DataFrame := List (String × List Val)

/-- Error taxonomy surfaced by the embedded pipeline.  A missing column raises
pandas KeyError, which the specification's taxonomy calls SchemaError;
find_matches raises Python ValueError when the model is untrained. -/
inductive LinkError where
  | schemaError (column : String)
  | valueError (msg : String)
  deriving DecidableEq

/-- Ordered column names of a frame. -/
def colNames (df : DataFrame) : List String := df.map Prod.fst

/-- Membership test for a column name. -/
def hasCol (df : DataFrame) (n : String) : Bool := df.any (fun p => p.1 == n)

/-- Column lookup: the values of the first column named n, if any. -/
def getCol (df : DataFrame) (n : String) : Option (List Val) :=
  (df.find? (fun p => p.1 == n)).map Prod.snd

/-- Column values with a default, for columns already known to exist. -/
def colOf (df : DataFrame) (n : String) : List Val := (getCol df n).getD []

/-- Model of the pandas assignment statement df[n] = v: replace the column in
place when the name is present, otherwise append a new rightmost column. -/
def setCol (df : DataFrame) (n : String) (v : List Val) : DataFrame :=
  if hasCol df n then df.map (fun p => if p.1 == n then (n, v) else p)
  else df ++ [(n, v)]

/-- Model of the pandas read df[n] as a fallible computation: a missing column
is the KeyError that the specification calls SchemaError. -/
def getColE (df : DataFrame) (n : String) : Except LinkError (List Val) :=
  match getCol df n with
  | some v => Except.ok v
  | none => Except.error (LinkError.schemaError n)

/-- Row count of a frame: length of its first column (0 for an empty frame). -/
def nRows (df : DataFrame) : Nat :=
  match df with
  | [] => 0
  | p :: _ => p.2.length

/-- Well-formedness of a frame as the pandas importer produces it: distinct
column names and one uniform length shared by all columns. -/
abbrev wfDF (df : DataFrame) : Prop :=
  (colNames df).Nodup ∧ ∀ p ∈ df, p.2.length = nRows df

/-- Fixed identity-field list of the SBA side hard-coded in create_comparison_df
(src/app.py line 108). -/
def sba_fields : List String := ["jobid", "clntname", "clntkey", "claccountid"]

/-- Model of the Python test col.startswith(pre) on column names. -/
def pyStartsWith (s pre : String) : Bool := pre.data.isPrefixOf s.data

/-- Description-like columns of the GL frame: every column whose name starts
with desc (src/app.py line 109). -/
def gl_desc_fields (gl_df : DataFrame) : List String :=
  (colNames gl_df).filter (fun c => pyStartsWith c "desc")

/-- Name of the hybrid output column built from one identity field and one
description field, mirroring the Python f-string that joins them with an
underscore. -/
def hybridName (sf gd : String) : String := sf ++ "_" ++ gd

/-- All hybrid column names in loop order: identity fields outermost. -/
def hybridNames (descs : List String) : List String :=
  sba_fields.flatMap (fun sf => descs.map (fun gd => hybridName sf gd))

/-- Program state of create_comparison_df: the two input frames and the two
comparison frames under construction. -/
structure ProjState where
  sba_df : DataFrame
  gl_df : DataFrame
  sba_comp_df : DataFrame
  gl_comp_df : DataFrame

/-- One inner-loop iteration of create_comparison_df (src/app.py lines 116-119):
read the identity column from the SBA frame and the description column from the
GL frame, then assign both hybrid columns on the comparison frames. -/
def projStep (sf gd : String) (st : ProjState) : Except LinkError ProjState := do
  let sv ← getColE st.sba_df sf
  let gv ← getColE st.gl_df gd
  pure { st with
    sba_comp_df := setCol st.sba_comp_df (hybridName sf gd) sv,
    gl_comp_df := setCol st.gl_comp_df (hybridName sf gd) gv }

/-- Model of create_comparison_df (src/app.py lines 92-121) in state-passing
style: compute the description fields, initialise both comparison frames with
the unique_id column of their respective inputs, then run the nested loop over
identity and description fields.  The final state retains the input frames so
that their preservation can be stated. -/
def create_comparison_df_run (sba_df gl_df : DataFrame) :
    Except LinkError ProjState := do
  let gl_descs := gl_desc_fields gl_df
  let suid ← getColE sba_df "unique_id"
  let guid ← getColE gl_df "unique_id"
  let st0 : ProjState := ⟨sba_df, gl_df, [("unique_id", suid)], [("unique_id", guid)]⟩
  sba_fields.foldlM
    (fun st sf => gl_descs.foldlM (fun st2 gd => projStep sf gd st2) st) st0

/-- Hybrid field projector: the pair of comparison frames returned by
create_comparison_df. -/
def create_comparison_df (sba_df gl_df : DataFrame) :
    Except LinkError (DataFrame × DataFrame) :=
  (create_comparison_df_run sba_df gl_df).map (fun st => (st.sba_comp_df, st.gl_comp_df))

/-- Hybrid columns of the left output in loop order: one column per identity
and description field pair, holding the identity field's values. -/
def pairColsL (sba_df gl_df : DataFrame) : List (String × List Val) :=
  sba_fields.flatMap (fun sf =>
    (gl_desc_fields gl_df).map (fun gd => (hybridName sf gd, colOf sba_df sf)))

/-- Hybrid columns of the right output in loop order: one column per identity
and description field pair, holding the description field's values. -/
def pairColsR (_sba_df gl_df : DataFrame) : List (String × List Val) :=
  sba_fields.flatMap (fun sf =>
    (gl_desc_fields gl_df).map (fun gd => (hybridName sf gd, colOf gl_df gd)))

/-- Model of the str.lower step of column standardization restricted to ASCII
letters; characters outside the class a-zA-Z0-9_ are removed by the following
filter step, so the ASCII restriction loses nothing for the stated claims. -/
def pyLowerChar (c : Char) : Char :=
  if 65 ≤ c.toNat && c.toNat ≤ 90 then Char.ofNat (c.toNat + 32) else c

/-- Character class kept by the regex removal step of standardization:
a-zA-Z0-9 and the underscore. -/
def isWordChar (c : Char) : Bool :=
  decide ((97 ≤ c.toNat ∧ c.toNat ≤ 122) ∨ (65 ≤ c.toNat ∧ c.toNat ≤ 90) ∨
    (48 ≤ c.toNat ∧ c.toNat ≤ 57) ∨ c.toNat = 95)

/-- Canonical character class claimed for standardized names: lowercase ASCII
letters, digits and the underscore. -/
def isCanonChar (c : Char) : Bool :=
  decide ((97 ≤ c.toNat ∧ c.toNat ≤ 122) ∨ (48 ≤ c.toNat ∧ c.toNat ≤ 57) ∨
    c.toNat = 95)

/-- Model of the regex replacement of every maximal run of two or more
underscores by a single underscore: keep an underscore only when the character
to its right in the output is not also an underscore. -/
def collapseUnderscores : List Char → List Char
  | [] => []
  | [c] => [c]
  | c :: d :: rest =>
    if c == '_' && d == '_' then collapseUnderscores (d :: rest)
    else c :: collapseUnderscores (d :: rest)

/-- Checker for the absence of two consecutive underscores. -/
def noDoubleUnderscore : List Char → Bool
  | [] => true
  | [_] => true
  | a :: b :: rest => !(a == '_' && b == '_') && noDoubleUnderscore (b :: rest)

/-- Model of CSVImporter._standardize_column_names (src/app.py lines 70-89) on
one column name: lowercase, spaces to underscores, drop characters outside
a-zA-Z0-9_, collapse repeated underscores. -/
def standardize_name (s : String) : String :=
  String.mk (collapseUnderscores
    (((s.data.map pyLowerChar).map (fun c => if c == ' ' then '_' else c)).filter
      isWordChar))

/-- Model of CSVImporter._standardize_column_names on a whole frame: rename
every column, keeping the data. -/
def standardize_column_names (df : DataFrame) : DataFrame :=
  df.map (fun p => (standardize_name p.1, p.2))

/-- Bool lexicographic order on code-point lists, modelling how Python compares
strings inside sorted. -/
def lexLe : List Char → List Char → Bool
  | [], _ => true
  | _ :: _, [] => false
  | a :: as, b :: bs =>
    if a.toNat < b.toNat then true
    else if b.toNat < a.toNat then false
    else lexLe as bs

/-- Lexicographic order on strings by code points. -/
def strLe (a b : String) : Bool := lexLe a.data b.data

/-- Insertion step of the model of the Python sorted builtin. -/
def insertSorted (x : String) : List String → List String
  | [] => [x]
  | y :: ys => if strLe x y then x :: y :: ys else y :: insertSorted x ys

/-- Model of the Python sorted builtin on strings: stable ascending sort. -/
def pySorted : List String → List String
  | [] => []
  | x :: xs => insertSorted x (pySorted xs)

/-- Model of SBAGLLinker._get_hybrid_columns (src/record_linker.py lines 41-51):
the sorted set of column names present in both frames, excluding unique_id. -/
def get_hybrid_columns (sba_df gl_df : DataFrame) : List String :=
  pySorted (((colNames sba_df).filter
    (fun c => (colNames gl_df).contains c && c != "unique_id")).dedup)

/-- Modelled from the spec: the splink linker object after training.  Training
happens inside the external splink library, so only its observable outcome is
kept: a finite list of scored candidate pairs, each carrying both source
identifiers and a match probability. -/
structure TrainedLinker where
  scoredPairs : List ((Nat × Nat) × ℚ)

/-- Model of the SBAGLLinker instance state (src/record_linker.py lines 22-39):
the two comparison frames, the stored threshold, the derived hybrid columns and
the optional trained linker. -/
structure SBAGLLinker where
  sba_df : DataFrame
  gl_df : DataFrame
  threshold : ℚ
  hybrid_columns : List String
  linker : Option TrainedLinker

/-- Model of SBAGLLinker.__init__: store the frames and the caller-supplied
threshold without any validation, derive the hybrid columns, leave the internal
linker unset. -/
def SBAGLLinker.init (sba_df gl_df : DataFrame) (threshold : ℚ) : SBAGLLinker :=
  ⟨sba_df, gl_df, threshold, get_hybrid_columns sba_df gl_df, none⟩

/-- Comparison levels available to the ladder of one comparison column. -/
inductive ComparisonLevel where
  | exact_match (term_frequency_adjustments : Bool)
  | jaro_winkler (threshold : ℚ)
  | levenshtein (threshold : Nat)
  | elseLevel
  deriving DecidableEq

/-- A splink comparison: one column with its ordered ladder of levels. -/
structure Comparison where
  column : String
  comparison_levels : List ComparisonLevel

/-- Model of splink's TextComparison constructor: a comparison over one column
with the given levels.  Splink completes every comparison ladder with a final
else (no match) level, which the model appends explicitly. -/
def TextComparison (col : String) (levels : List ComparisonLevel) : Comparison :=
  ⟨col, levels ++ [ComparisonLevel.elseLevel]⟩

/-- Model of splink's block_on: an equi-join blocking rule on one column. -/
structure BlockingRule where
  column : String

/-- Constructor mirroring the block_on call of the source. -/
def block_on (col : String) : BlockingRule := ⟨col⟩

/-- Model of splink's SettingsCreator as configured by the source. -/
structure SettingsCreator where
  link_type : String
  blocking_rules_to_generate_predictions : List BlockingRule
  comparisons : List Comparison
  deterministic_rules : List String

/-- Model of SBAGLLinker._create_settings (src/record_linker.py lines 53-88):
link-only settings with blocking on the first two hybrid columns, one
TextComparison ladder per hybrid column and deterministic equality rules on the
first three hybrid columns. -/
def SBAGLLinker.create_settings (st : SBAGLLinker) : SettingsCreator :=
  ⟨"link_only",
    (st.hybrid_columns.take 2).map block_on,
    st.hybrid_columns.map (fun col =>
      TextComparison col
        [ComparisonLevel.exact_match true,
         ComparisonLevel.jaro_winkler (9/10),
         ComparisonLevel.jaro_winkler (8/10),
         ComparisonLevel.levenshtein 3]),
    (st.hybrid_columns.take 3).map (fun col => "l." ++ col ++ " = r." ++ col)⟩

/-- One training call issued by train_model on the shared linker object. -/
inductive TrainingStep where
  | estimateProbabilityTwoRandomRecordsMatch (deterministic_rules : List String)
      (expected_recall : ℚ)
  | estimateUUsingRandomSampling (max_pairs : Nat)
  | estimateParametersUsingEM (blocking_col : String)
  deriving DecidableEq

/-- Model of SBAGLLinker.train_model (src/record_linker.py lines 90-140) as the
ordered sequence of splink training calls it issues on the one shared linker:
first the prior match probability from the deterministic rules with recall 0.7,
then the single u-probability estimation from random sampling bounded by 1e8
pairs, then one expectation-maximisation pass per first-three hybrid column. -/
def train_model_steps (st : SBAGLLinker) : List TrainingStep :=
  TrainingStep.estimateProbabilityTwoRandomRecordsMatch
      (SBAGLLinker.create_settings st).deterministic_rules (7/10)
    :: TrainingStep.estimateUUsingRandomSampling 100000000
    :: (st.hybrid_columns.take 3).map TrainingStep.estimateParametersUsingEM

/-- Modelled from the spec: splink's linker.inference.predict with a threshold
keeps exactly the scored candidate pairs whose match probability meets or
exceeds the threshold.  The scoring itself lives inside the external splink
library; only this thresholding contract is modelled. -/
def predict (L : TrainedLinker) (t : ℚ) : List ((Nat × Nat) × ℚ) :=
  L.scoredPairs.filter (fun p => decide (t ≤ p.2))

/-- Model of SBAGLLinker.find_matches (src/record_linker.py lines 142-174) in
state-passing style: raise ValueError while the internal linker is unset,
otherwise return the prediction at the stored threshold.  The instance state is
returned alongside to make its preservation statable. -/
def find_matches (st : SBAGLLinker) :
    SBAGLLinker × Except LinkError (List ((Nat × Nat) × ℚ)) :=
  match st.linker with
  | none => (st, Except.error (LinkError.valueError
      "Model must be trained before finding matches"))
  | some L => (st, Except.ok (predict L st.threshold))

/-! Helper lemmas about the frame model. -/

lemma hasCol_of_mem_colNames {df : DataFrame} {n : String} (h : n ∈ colNames df) :
    hasCol df n = true := by
  unfold colNames at h
  rcases List.mem_map.mp h with ⟨p, hp, hpn⟩
  exact List.any_eq_true.mpr ⟨p, hp, by simp [hpn]⟩

lemma getCol_isSome_of_hasCol {df : DataFrame} {n : String}
    (h : hasCol df n = true) : ∃ v, getCol df n = some v := by
  unfold hasCol at h
  rcases List.any_eq_true.mp h with ⟨p, hp, hpn⟩
  have hs : (df.find? (fun q => q.1 == n)).isSome :=
    List.find?_isSome.mpr ⟨p, hp, hpn⟩
  rcases Option.isSome_iff_exists.mp hs with ⟨q, hq⟩
  exact ⟨q.2, by unfold getCol; rw [hq]; rfl⟩

lemma getCol_eq_colOf {df : DataFrame} {n : String} (h : hasCol df n = true) :
    getCol df n = some (colOf df n) := by
  rcases getCol_isSome_of_hasCol h with ⟨v, hv⟩
  unfold colOf
  rw [hv]
  rfl

lemma getColE_ok {df : DataFrame} {n : String} (h : hasCol df n = true) :
    getColE df n = Except.ok (colOf df n) := by
  unfold getColE
  rw [getCol_eq_colOf h]

lemma getColE_err {df : DataFrame} {n : String} (h : hasCol df n = false) :
    getColE df n = Except.error (LinkError.schemaError n) := by
  have hnone : getCol df n = none := by
    have hall : ∀ p ∈ df, ¬(p.1 == n) = true := by
      intro p hp hpn
      have hx : hasCol df n = true := by
        unfold hasCol
        exact List.any_eq_true.mpr ⟨p, hp, hpn⟩
      rw [hx] at h
      cases h
    unfold getCol
    rw [List.find?_eq_none.mpr hall]
    rfl
  unfold getColE
  rw [hnone]

lemma setCol_fresh {df : DataFrame} {n : String} (h : hasCol df n = false)
    (v : List Val) : setCol df n v = df ++ [(n, v)] := by
  simp [setCol, h]

lemma hasCol_append {a b : DataFrame} {n : String} :
    hasCol (a ++ b) n = (hasCol a n || hasCol b n) := by
  simp [hasCol, List.any_append]

lemma foldl_setCol_append :
    ∀ (cols : List (String × List Val)) (init : DataFrame),
      (∀ p ∈ cols, hasCol init p.1 = false) →
      (cols.map Prod.fst).Nodup →
      cols.foldl (fun d p => setCol d p.1 p.2) init = init ++ cols := by
  intro cols
  induction cols with
  | nil => intro init _ _; simp
  | cons p rest ih =>
    intro init hfresh hnd
    have h1 : hasCol init p.1 = false := hfresh p (List.mem_cons_self p rest)
    have hstep : setCol init p.1 p.2 = init ++ [p] := by
      have hp := setCol_fresh h1 p.2
      simpa using hp
    simp only [List.foldl_cons]
    rw [hstep, ih (init ++ [p]) ?_ ?_]
    · simp
    · intro q hq
      rw [hasCol_append]
      have hq1 : hasCol init q.1 = false := hfresh q (List.mem_cons_of_mem p hq)
      have hq2 : hasCol [p] q.1 = false := by
        have hmem : q.1 ∈ rest.map Prod.fst := List.mem_map_of_mem Prod.fst hq
        have hne : p.1 ∉ rest.map Prod.fst := (List.nodup_cons.mp hnd).1
        simp only [hasCol, List.any_cons, List.any_nil, Bool.or_false]
        exact beq_eq_false_iff_ne.mpr (fun he => hne (he ▸ hmem))
      rw [hq1, hq2]
      rfl
    · exact (List.nodup_cons.mp hnd).2

lemma getCol_mem_nodup :
    ∀ (cols : List (String × List Val)) (n : String) (v : List Val),
      (n, v) ∈ cols → (cols.map Prod.fst).Nodup → getCol cols n = some v := by
  intro cols
  induction cols with
  | nil => intro n v h _; cases h
  | cons p rest ih =>
    intro n v h hnd
    rcases List.mem_cons.mp h with h1 | h1
    · cases h1.symm
      simp [getCol]
    · have hne : (p.1 == n) = false := by
        have hnmem : p.1 ∉ rest.map Prod.fst := (List.nodup_cons.mp hnd).1
        have hmem : n ∈ rest.map Prod.fst := by
          have := List.mem_map_of_mem Prod.fst h1
          simpa using this
        exact beq_eq_false_iff_ne.mpr (fun he => hnmem (he ▸ hmem))
      unfold getCol
      rw [List.find?_cons_of_neg _ (by rw [hne]; exact Bool.false_ne_true)]
      exact ih n v h1 (List.nodup_cons.mp hnd).2

/-! Injectivity of the hybrid column names built by the projector. -/

lemma hybridName_inj_right (sf : String) : ∀ gd1 gd2 : String,
    hybridName sf gd1 = hybridName sf gd2 → gd1 = gd2 := by
  intro gd1 gd2 h
  have hd := congrArg String.data h
  simp only [hybridName, String.data_append] at hd
  exact String.ext (List.append_cancel_left hd)

lemma hybridName_inj : ∀ sf1 ∈ sba_fields, ∀ sf2 ∈ sba_fields,
    ∀ gd1 gd2 : String,
      hybridName sf1 gd1 = hybridName sf2 gd2 → sf1 = sf2 ∧ gd1 = gd2 := by
  intro sf1 h1 sf2 h2 gd1 gd2 h
  simp only [sba_fields, List.mem_cons, List.not_mem_nil, or_false] at h1 h2
  rcases h1 with rfl | rfl | rfl | rfl <;> rcases h2 with rfl | rfl | rfl | rfl <;>
    first
      | exact ⟨rfl, hybridName_inj_right _ _ _ h⟩
      | (exfalso
         have hd := congrArg String.data h
         simp only [hybridName, String.data_append] at hd
         simp at hd)

lemma hybridName_ne_uid : ∀ sf ∈ sba_fields, ∀ gd : String,
    hybridName sf gd ≠ "unique_id" := by
  intro sf h1 gd h
  simp only [sba_fields, List.mem_cons, List.not_mem_nil, or_false] at h1
  have hd := congrArg String.data h
  rcases h1 with rfl | rfl | rfl | rfl <;>
    (simp only [hybridName, String.data_append] at hd; simp at hd)

lemma hybridName_inj_fun (sf : String) : Function.Injective (hybridName sf) :=
  fun gd1 gd2 h => hybridName_inj_right sf gd1 gd2 h

lemma hybridNames_nodup {descs : List String} (h : descs.Nodup) :
    (hybridNames descs).Nodup := by
  unfold hybridNames
  rw [List.nodup_flatMap]
  constructor
  · intro sf _
    exact h.map (hybridName_inj_fun sf)
  · have hdisj : ∀ sf1 ∈ sba_fields, ∀ sf2 ∈ sba_fields, sf1 ≠ sf2 →
        List.Disjoint (descs.map (fun gd => hybridName sf1 gd))
          (descs.map (fun gd => hybridName sf2 gd)) := by
      intro sf1 hm1 sf2 hm2 hne x hx1 hx2
      rcases List.mem_map.mp hx1 with ⟨gd1, _, hg1⟩
      rcases List.mem_map.mp hx2 with ⟨gd2, _, hg2⟩
      exact hne (hybridName_inj sf1 hm1 sf2 hm2 gd1 gd2 (hg1.trans hg2.symm)).1
    have hnd : sba_fields.Nodup := by decide
    exact hnd.imp_of_mem (fun ha hb hne => hdisj _ ha _ hb hne)

lemma uid_not_mem_hybridNames (descs : List String) :
    "unique_id" ∉ hybridNames descs := by
  intro h
  rcases List.mem_flatMap.mp h with ⟨sf, hsf, hmem⟩
  rcases List.mem_map.mp hmem with ⟨gd, _, hg⟩
  exact hybridName_ne_uid sf hsf gd hg

/-! Characterization of the projector loop. -/

lemma exceptOk_bind {α β : Type} (x : α) (f : α → Except LinkError β) :
    (Except.ok x >>= f) = f x := rfl

lemma inner_foldlM_ok (sba gl : DataFrame) (sf : String)
    (hsf : hasCol sba sf = true) :
    ∀ (descs : List String) (cL cR : DataFrame),
      (∀ gd ∈ descs, hasCol gl gd = true) →
      descs.foldlM (fun st2 gd => projStep sf gd st2)
          (⟨sba, gl, cL, cR⟩ : ProjState) =
        Except.ok ⟨sba, gl,
          (descs.map (fun gd => (hybridName sf gd, colOf sba sf))).foldl
            (fun d p => setCol d p.1 p.2) cL,
          (descs.map (fun gd => (hybridName sf gd, colOf gl gd))).foldl
            (fun d p => setCol d p.1 p.2) cR⟩ := by
  intro descs
  induction descs with
  | nil => intro cL cR _; rfl
  | cons gd rest ih =>
    intro cL cR hall
    have hgd : hasCol gl gd = true := hall gd (List.mem_cons_self gd rest)
    have hstep : projStep sf gd (⟨sba, gl, cL, cR⟩ : ProjState) =
        Except.ok ⟨sba, gl, setCol cL (hybridName sf gd) (colOf sba sf),
          setCol cR (hybridName sf gd) (colOf gl gd)⟩ := by
      unfold projStep
      show (getColE sba sf >>= _) = _
      rw [getColE_ok hsf, exceptOk_bind]
      show (getColE gl gd >>= _) = _
      rw [getColE_ok hgd, exceptOk_bind]
      rfl
    rw [List.foldlM_cons, hstep, exceptOk_bind]
    rw [ih _ _ (fun g hg => hall g (List.mem_cons_of_mem gd hg))]
    simp only [List.map_cons, List.foldl_cons]

lemma outer_foldlM_ok (sba gl : DataFrame) (descs : List String)
    (hdescs : ∀ gd ∈ descs, hasCol gl gd = true) :
    ∀ (fields : List String) (cL cR : DataFrame),
      (∀ f ∈ fields, hasCol sba f = true) →
      fields.foldlM
          (fun st sf => descs.foldlM (fun st2 gd => projStep sf gd st2) st)
          (⟨sba, gl, cL, cR⟩ : ProjState) =
        Except.ok ⟨sba, gl,
          (fields.flatMap (fun sf =>
            descs.map (fun gd => (hybridName sf gd, colOf sba sf)))).foldl
            (fun d p => setCol d p.1 p.2) cL,
          (fields.flatMap (fun sf =>
            descs.map (fun gd => (hybridName sf gd, colOf gl gd)))).foldl
            (fun d p => setCol d p.1 p.2) cR⟩ := by
  intro fields
  induction fields with
  | nil => intro cL cR _; rfl
  | cons sf rest ih =>
    intro cL cR hall
    rw [List.foldlM_cons,
      inner_foldlM_ok sba gl sf (hall sf (List.mem_cons_self sf rest)) descs cL cR
        hdescs,
      exceptOk_bind]
    rw [ih _ _ (fun f hf => hall f (List.mem_cons_of_mem sf hf))]
    simp only [List.flatMap_cons, List.foldl_append]

lemma gl_desc_fields_hasCol {gl : DataFrame} :
    ∀ gd ∈ gl_desc_fields gl, hasCol gl gd = true := by
  intro gd hgd
  unfold gl_desc_fields at hgd
  exact hasCol_of_mem_colNames (List.mem_of_mem_filter hgd)

lemma run_ok (sba gl : DataFrame)
    (hsu : hasCol sba "unique_id" = true) (hgu : hasCol gl "unique_id" = true)
    (hsf : ∀ f ∈ sba_fields, hasCol sba f = true) :
    create_comparison_df_run sba gl =
      Except.ok ⟨sba, gl,
        (pairColsL sba gl).foldl (fun d p => setCol d p.1 p.2)
          [("unique_id", colOf sba "unique_id")],
        (pairColsR sba gl).foldl (fun d p => setCol d p.1 p.2)
          [("unique_id", colOf gl "unique_id")]⟩ := by
  unfold create_comparison_df_run
  rw [getColE_ok hsu, exceptOk_bind]
  rw [getColE_ok hgu, exceptOk_bind]
  rw [outer_foldlM_ok sba gl (gl_desc_fields gl) gl_desc_fields_hasCol
    sba_fields _ _ hsf]
  rfl

/-! Preservation of the input frames through the projector. -/

lemma exceptErr_bind {α β : Type} (e : LinkError) (f : α → Except LinkError β) :
    (Except.error e >>= f) = Except.error e := rfl

lemma exceptPure {α : Type} (x : α) :
    (pure x : Except LinkError α) = Except.ok x := rfl

lemma projStep_preserves {sf gd : String} {st st' : ProjState}
    (h : projStep sf gd st = Except.ok st') :
    st'.sba_df = st.sba_df ∧ st'.gl_df = st.gl_df := by
  unfold projStep at h
  cases h1 : getColE st.sba_df sf with
  | error e => rw [h1, exceptErr_bind] at h; cases h
  | ok sv =>
    rw [h1, exceptOk_bind] at h
    cases h2 : getColE st.gl_df gd with
    | error e => rw [h2, exceptErr_bind] at h; cases h
    | ok gv =>
      rw [h2, exceptOk_bind, exceptPure] at h
      injection h with h3
      rw [← h3]
      exact ⟨rfl, rfl⟩

lemma foldlM_proj_preserves {α : Type}
    (f : ProjState → α → Except LinkError ProjState)
    (hf : ∀ st a st', f st a = Except.ok st' →
      st'.sba_df = st.sba_df ∧ st'.gl_df = st.gl_df) :
    ∀ (l : List α) (st st' : ProjState), l.foldlM f st = Except.ok st' →
      st'.sba_df = st.sba_df ∧ st'.gl_df = st.gl_df := by
  intro l
  induction l with
  | nil =>
    intro st st' h
    rw [List.foldlM_nil, exceptPure] at h
    injection h with h1
    rw [← h1]
    exact ⟨rfl, rfl⟩
  | cons a rest ih =>
    intro st st' h
    rw [List.foldlM_cons] at h
    cases h1 : f st a with
    | error e => rw [h1, exceptErr_bind] at h; cases h
    | ok st1 =>
      rw [h1, exceptOk_bind] at h
      have p1 := hf st a st1 h1
      have p2 := ih st1 st' h
      exact ⟨p2.1.trans p1.1, p2.2.trans p1.2⟩

lemma run_preserves_inputs {sba gl : DataFrame} {st : ProjState}
    (h : create_comparison_df_run sba gl = Except.ok st) :
    st.sba_df = sba ∧ st.gl_df = gl := by
  unfold create_comparison_df_run at h
  cases h1 : getColE sba "unique_id" with
  | error e => rw [h1, exceptErr_bind] at h; cases h
  | ok suid =>
    rw [h1, exceptOk_bind] at h
    cases h2 : getColE gl "unique_id" with
    | error e => rw [h2, exceptErr_bind] at h; cases h
    | ok guid =>
      rw [h2, exceptOk_bind] at h
      exact foldlM_proj_preserves _
        (fun s sf s2 hs =>
          foldlM_proj_preserves _ (fun s3 gd s4 hs4 => projStep_preserves hs4)
            (gl_desc_fields gl) s s2 hs)
        sba_fields _ st h

/-! Appended form of the projector output. -/

lemma run_ok_append (sba gl : DataFrame)
    (hnd : (colNames gl).Nodup)
    (hsu : hasCol sba "unique_id" = true) (hgu : hasCol gl "unique_id" = true)
    (hsf : ∀ f ∈ sba_fields, hasCol sba f = true) :
    create_comparison_df_run sba gl =
      Except.ok ⟨sba, gl,
        ("unique_id", colOf sba "unique_id") :: pairColsL sba gl,
        ("unique_id", colOf gl "unique_id") :: pairColsR sba gl⟩ := by
  rw [run_ok sba gl hsu hgu hsf]
  have hdescs_nd : (gl_desc_fields gl).Nodup := hnd.filter _
  have hnamesL : (pairColsL sba gl).map Prod.fst = hybridNames (gl_desc_fields gl) := by
    unfold pairColsL hybridNames
    simp only [List.map_flatMap, List.map_map]
    rfl
  have hnamesR : (pairColsR sba gl).map Prod.fst = hybridNames (gl_desc_fields gl) := by
    unfold pairColsR hybridNames
    simp only [List.map_flatMap, List.map_map]
    rfl
  have hfreshL : ∀ p ∈ pairColsL sba gl,
      hasCol [("unique_id", colOf sba "unique_id")] p.1 = false := by
    intro p hp
    have hpn : p.1 ∈ hybridNames (gl_desc_fields gl) := by
      rw [← hnamesL]
      exact List.mem_map_of_mem Prod.fst hp
    simp only [hasCol, List.any_cons, List.any_nil, Bool.or_false]
    refine beq_eq_false_iff_ne.mpr ?_
    intro he
    exact uid_not_mem_hybridNames _ (he ▸ hpn)
  have hfreshR : ∀ p ∈ pairColsR sba gl,
      hasCol [("unique_id", colOf gl "unique_id")] p.1 = false := by
    intro p hp
    have hpn : p.1 ∈ hybridNames (gl_desc_fields gl) := by
      rw [← hnamesR]
      exact List.mem_map_of_mem Prod.fst hp
    simp only [hasCol, List.any_cons, List.any_nil, Bool.or_false]
    refine beq_eq_false_iff_ne.mpr ?_
    intro he
    exact uid_not_mem_hybridNames _ (he ▸ hpn)
  have hndL : ((pairColsL sba gl).map Prod.fst).Nodup := by
    rw [hnamesL]; exact hybridNames_nodup hdescs_nd
  have hndR : ((pairColsR sba gl).map Prod.fst).Nodup := by
    rw [hnamesR]; exact hybridNames_nodup hdescs_nd
  rw [foldl_setCol_append (pairColsL sba gl) _ hfreshL hndL,
    foldl_setCol_append (pairColsR sba gl) _ hfreshR hndR]
  rfl

/-! Names of the hybrid output columns. -/

lemma pairColsL_names (sba gl : DataFrame) :
    (pairColsL sba gl).map Prod.fst = hybridNames (gl_desc_fields gl) := by
  unfold pairColsL hybridNames
  simp only [List.map_flatMap, List.map_map]
  rfl

lemma pairColsR_names (sba gl : DataFrame) :
    (pairColsR sba gl).map Prod.fst = hybridNames (gl_desc_fields gl) := by
  unfold pairColsR hybridNames
  simp only [List.map_flatMap, List.map_map]
  rfl

lemma getCol_out_hybrid_L {sba gl : DataFrame} (hnd : (colNames gl).Nodup)
    {sf gd : String} (hsf : sf ∈ sba_fields) (hgd : gd ∈ gl_desc_fields gl)
    (u : List Val) :
    getCol (("unique_id", u) :: pairColsL sba gl) (hybridName sf gd) =
      some (colOf sba sf) := by
  have hne : (("unique_id", u).1 == hybridName sf gd) = false :=
    beq_eq_false_iff_ne.mpr (fun he => hybridName_ne_uid sf hsf gd he.symm)
  have hmem : (hybridName sf gd, colOf sba sf) ∈ pairColsL sba gl := by
    unfold pairColsL
    exact List.mem_flatMap.mpr ⟨sf, hsf, List.mem_map_of_mem _ hgd⟩
  have hndL : ((pairColsL sba gl).map Prod.fst).Nodup := by
    rw [pairColsL_names]
    exact hybridNames_nodup (hnd.filter _)
  have hrest := getCol_mem_nodup (pairColsL sba gl) _ _ hmem hndL
  unfold getCol at hrest ⊢
  rw [List.find?_cons_of_neg _ (by rw [hne]; exact Bool.false_ne_true)]
  exact hrest

lemma getCol_out_hybrid_R {sba gl : DataFrame} (hnd : (colNames gl).Nodup)
    {sf gd : String} (hsf : sf ∈ sba_fields) (hgd : gd ∈ gl_desc_fields gl)
    (u : List Val) :
    getCol (("unique_id", u) :: pairColsR sba gl) (hybridName sf gd) =
      some (colOf gl gd) := by
  have hne : (("unique_id", u).1 == hybridName sf gd) = false :=
    beq_eq_false_iff_ne.mpr (fun he => hybridName_ne_uid sf hsf gd he.symm)
  have hmem : (hybridName sf gd, colOf gl gd) ∈ pairColsR sba gl := by
    unfold pairColsR
    exact List.mem_flatMap.mpr ⟨sf, hsf, List.mem_map_of_mem _ hgd⟩
  have hndR : ((pairColsR sba gl).map Prod.fst).Nodup := by
    rw [pairColsR_names]
    exact hybridNames_nodup (hnd.filter _)
  have hrest := getCol_mem_nodup (pairColsR sba gl) _ _ hmem hndR
  unfold getCol at hrest ⊢
  rw [List.find?_cons_of_neg _ (by rw [hne]; exact Bool.false_ne_true)]
  exact hrest

lemma colOf_length_of_wf {df : DataFrame} (hwf : wfDF df) {n : String}
    (h : hasCol df n = true) : (colOf df n).length = nRows df := by
  rcases getCol_isSome_of_hasCol h with ⟨v, hv⟩
  have hv2 := hv
  unfold getCol at hv2
  rcases Option.map_eq_some'.mp hv2 with ⟨q, hq, hq2⟩
  have hqmem : q ∈ df := List.mem_of_find?_eq_some hq
  have hlen : q.2.length = nRows df := hwf.2 q hqmem
  unfold colOf
  rw [hv]
  show v.length = nRows df
  rw [← hq2]
  exact hlen

/-! Lemmas about column standardization. -/

lemma mem_of_mem_collapseUnderscores :
    ∀ (l : List Char) (c : Char), c ∈ collapseUnderscores l → c ∈ l
  | [], _, h => by cases h
  | [d], c, h => by simpa [collapseUnderscores] using h
  | a :: d :: rest, c, h => by
    simp only [collapseUnderscores] at h
    split at h
    · exact List.mem_cons_of_mem a (mem_of_mem_collapseUnderscores (d :: rest) c h)
    · rcases List.mem_cons.mp h with h1 | h1
      · exact h1 ▸ List.mem_cons_self a (d :: rest)
      · exact List.mem_cons_of_mem a (mem_of_mem_collapseUnderscores (d :: rest) c h1)

lemma collapseUnderscores_cons :
    ∀ (d : Char) (rest : List Char),
      ∃ t, collapseUnderscores (d :: rest) = d :: t
  | d, [] => ⟨[], rfl⟩
  | d, e :: rest => by
    rcases collapseUnderscores_cons e rest with ⟨t, ht⟩
    simp only [collapseUnderscores]
    split
    · rename_i hcond
      have hde : d = e := by
        rw [Bool.and_eq_true] at hcond
        have h1 : d = '_' := by have hx := hcond.1; rwa [beq_iff_eq] at hx
        have h2 : e = '_' := by have hx := hcond.2; rwa [beq_iff_eq] at hx
        rw [h1, h2]
      exact ⟨t, by rw [ht, hde]⟩
    · exact ⟨collapseUnderscores (e :: rest), rfl⟩

lemma noDoubleUnderscore_collapse :
    ∀ l : List Char, noDoubleUnderscore (collapseUnderscores l) = true
  | [] => rfl
  | [_] => rfl
  | a :: d :: rest => by
    simp only [collapseUnderscores]
    split
    · exact noDoubleUnderscore_collapse (d :: rest)
    · rename_i hcond
      rcases collapseUnderscores_cons d rest with ⟨t, ht⟩
      have ihr := noDoubleUnderscore_collapse (d :: rest)
      rw [ht] at ihr ⊢
      simp only [noDoubleUnderscore]
      rw [ihr, Bool.and_true]
      have hfalse : (a == '_' && d == '_') = false := by
        cases hcc : (a == '_' && d == '_')
        · rfl
        · exact absurd hcc hcond
      rw [hfalse]
      rfl

lemma pyLowerChar_not_upper (c : Char) :
    ¬(65 ≤ (pyLowerChar c).toNat ∧ (pyLowerChar c).toNat ≤ 90) := by
  unfold pyLowerChar
  split
  · rename_i hcond
    rw [Bool.and_eq_true] at hcond
    have h1 : 65 ≤ c.toNat ∧ c.toNat ≤ 90 :=
      ⟨of_decide_eq_true hcond.1, of_decide_eq_true hcond.2⟩
    have h2 : (Char.ofNat (c.toNat + 32)).toNat = c.toNat + 32 := by
      unfold Char.ofNat
      split
      · rfl
      · omega
    rw [h2]
    omega
  · rename_i hcond
    intro hcontra
    apply hcond
    rw [Bool.and_eq_true]
    exact ⟨decide_eq_true hcontra.1, decide_eq_true hcontra.2⟩

lemma spaceFix_not_upper (c : Char) (h : ¬(65 ≤ c.toNat ∧ c.toNat ≤ 90)) :
    ¬(65 ≤ (if c == ' ' then '_' else c).toNat ∧
      (if c == ' ' then '_' else c).toNat ≤ 90) := by
  split
  · decide
  · exact h

lemma isCanonChar_of_isWordChar {c : Char} (hw : isWordChar c = true)
    (hu : ¬(65 ≤ c.toNat ∧ c.toNat ≤ 90)) : isCanonChar c = true := by
  unfold isWordChar at hw
  unfold isCanonChar
  rw [decide_eq_true_eq] at hw
  rw [decide_eq_true_eq]
  omega

/-! Claim theorems. -/

/-- C5: for every pair of input RecordSets, if either input lacks the unique
identifier column, the Hybrid Field Projector fails with SchemaError (the
KeyError raised by the unique_id access). -/
theorem projector_missing_uid_schema_error (sba gl : DataFrame)
    (h : hasCol sba "unique_id" = false ∨ hasCol gl "unique_id" = false) :
    create_comparison_df sba gl =
      Except.error (LinkError.schemaError "unique_id") := by
  unfold create_comparison_df create_comparison_df_run
  rcases h with h1 | h1
  · rw [getColE_err h1]
    rfl
  · cases hs : hasCol sba "unique_id" with
    | false =>
      rw [getColE_err hs]
      rfl
    | true =>
      rw [getColE_ok hs, exceptOk_bind, getColE_err h1]
      rfl

/-- Witness for C5: a concrete left frame without unique_id is rejected. -/
theorem projector_missing_uid_schema_error_witness :
    create_comparison_df [("name", [some "x"])] [("unique_id", [some "1"])] =
      Except.error (LinkError.schemaError "unique_id") :=
  projector_missing_uid_schema_error _ _ (Or.inl (by decide))

/-- C9: calling find_matches while the internal linker is still None raises
ValueError and leaves the instance state unchanged. -/
theorem find_matches_untrained_value_error (st : SBAGLLinker)
    (h : st.linker = none) :
    find_matches st = (st, Except.error (LinkError.valueError
      "Model must be trained before finding matches")) := by
  unfold find_matches
  rw [h]

/-- Witness for C9: a freshly constructed linker has no trained model and
find_matches fails on it without touching the state. -/
theorem find_matches_untrained_value_error_witness :
    find_matches (SBAGLLinker.init [] [] (9/10)) =
      (SBAGLLinker.init [] [] (9/10), Except.error (LinkError.valueError
        "Model must be trained before finding matches")) :=
  find_matches_untrained_value_error _ rfl

/-- C6 (code evidence): the constructor accepts a threshold outside the unit
interval without raising anything; the value 3/2 is stored exactly as given
and the instance is produced, so no ConfigurationError occurs at construction,
contrary to the claim. -/
theorem threshold_unvalidated_at_init :
    (SBAGLLinker.init [] [] (3/2)).threshold = 3/2 ∧
    (SBAGLLinker.init [] [] (3/2)).linker = none :=
  ⟨rfl, rfl⟩

/-- C4: the Scorer returns exactly the candidate pairs whose match probability
is at least the stored threshold, and raising the threshold never adds
results. -/
theorem scorer_threshold_filter_monotone (L : TrainedLinker) (st : SBAGLLinker)
    (t1 t2 : ℚ) (hL : st.linker = some L) (ht : st.threshold = t1)
    (h12 : t1 < t2) :
    find_matches st = (st, Except.ok (predict L t1)) ∧
    (∀ p, p ∈ predict L t1 ↔ (p ∈ L.scoredPairs ∧ t1 ≤ p.2)) ∧
    (∀ p, p ∈ predict L t2 → p ∈ predict L t1) := by
  refine ⟨?_, ?_, ?_⟩
  · unfold find_matches
    rw [hL, ht]
  · intro p
    unfold predict
    rw [List.mem_filter]
    constructor
    · rintro ⟨hm, hd⟩
      exact ⟨hm, of_decide_eq_true hd⟩
    · rintro ⟨hm, hd⟩
      exact ⟨hm, decide_eq_true hd⟩
  · intro p hp
    unfold predict at hp ⊢
    rw [List.mem_filter] at hp ⊢
    exact ⟨hp.1, decide_eq_true
      (le_trans (le_of_lt h12) (of_decide_eq_true hp.2))⟩

/-- Witness for C4: applying the scorer contract at a one-pair trained linker
with thresholds 0 and 1. -/
theorem scorer_threshold_filter_monotone_witness :
    find_matches
        (⟨[], [], 0, [], some ⟨[((1, 2), 9/10)]⟩⟩ : SBAGLLinker) =
      ((⟨[], [], 0, [], some ⟨[((1, 2), 9/10)]⟩⟩ : SBAGLLinker),
        Except.ok (predict ⟨[((1, 2), 9/10)]⟩ 0)) :=
  (scorer_threshold_filter_monotone ⟨[((1, 2), 9/10)]⟩ _ 0 1 rfl rfl
    zero_lt_one).1

/-- C2: every comparison configured by the linker carries the fixed ladder of
exact match, Jaro-Winkler at 0.9, Jaro-Winkler at 0.8, Levenshtein within 3
and the final else level, in this order, and the comparisons cover exactly the
hybrid columns. -/
theorem comparison_ladder_fixed (st : SBAGLLinker) (c : Comparison)
    (hc : c ∈ (SBAGLLinker.create_settings st).comparisons) :
    c.comparison_levels =
      [ComparisonLevel.exact_match true, ComparisonLevel.jaro_winkler (9/10),
       ComparisonLevel.jaro_winkler (8/10), ComparisonLevel.levenshtein 3,
       ComparisonLevel.elseLevel] ∧
    (SBAGLLinker.create_settings st).comparisons.map Comparison.column =
      st.hybrid_columns := by
  constructor
  · unfold SBAGLLinker.create_settings at hc
    rcases List.mem_map.mp hc with ⟨col, _, hcol⟩
    rw [← hcol]
    rfl
  · unfold SBAGLLinker.create_settings
    rw [List.map_map]
    show List.map id st.hybrid_columns = st.hybrid_columns
    exact List.map_id _

/-- Witness for C2: the ladder of the comparison built for a concrete shared
column acct. -/
theorem comparison_ladder_fixed_witness :
    (TextComparison "acct"
        [ComparisonLevel.exact_match true, ComparisonLevel.jaro_winkler (9/10),
         ComparisonLevel.jaro_winkler (8/10),
         ComparisonLevel.levenshtein 3]).comparison_levels =
      [ComparisonLevel.exact_match true, ComparisonLevel.jaro_winkler (9/10),
       ComparisonLevel.jaro_winkler (8/10), ComparisonLevel.levenshtein 3,
       ComparisonLevel.elseLevel] :=
  (comparison_ladder_fixed
    (SBAGLLinker.init [("unique_id", []), ("acct", [])]
      [("unique_id", []), ("acct", [])] (9/10))
    (TextComparison "acct"
      [ComparisonLevel.exact_match true, ComparisonLevel.jaro_winkler (9/10),
       ComparisonLevel.jaro_winkler (8/10), ComparisonLevel.levenshtein 3])
    (List.mem_cons_self _ _)).1

/-- C3: the training procedure first estimates the prior from the
deterministic equality rules with recall 0.7, then estimates u-probabilities
exactly once via random sampling bounded by 1e8 pairs, and then runs one
EM pass per chosen blocking key (the first three hybrid columns); the u step
occurs exactly once in the whole sequence, so it is never re-estimated. -/
theorem training_sequence_order (st : SBAGLLinker) :
    train_model_steps st =
      TrainingStep.estimateProbabilityTwoRandomRecordsMatch
          (SBAGLLinker.create_settings st).deterministic_rules (7/10)
        :: TrainingStep.estimateUUsingRandomSampling 100000000
        :: (st.hybrid_columns.take 3).map
            TrainingStep.estimateParametersUsingEM ∧
    (train_model_steps st).countP
        (fun s => match s with
          | TrainingStep.estimateUUsingRandomSampling _ => true
          | _ => false) = 1 ∧
    (SBAGLLinker.create_settings st).deterministic_rules =
      (st.hybrid_columns.take 3).map
        (fun col => "l." ++ col ++ " = r." ++ col) := by
  refine ⟨rfl, ?_, rfl⟩
  unfold train_model_steps
  simp only [List.countP_cons]
  rw [List.countP_eq_zero.mpr ?_]
  · rfl
  · intro a ha
    rcases List.mem_map.mp ha with ⟨col, _, hcol⟩
    rw [← hcol]
    exact fun hx => Bool.false_ne_true hx

/-- C10: the projector does not modify its inputs: any successful run returns
a state whose input frames are exactly the frames that were passed in. -/
theorem projector_preserves_inputs (sba gl : DataFrame) (st : ProjState)
    (h : create_comparison_df_run sba gl = Except.ok st) :
    st.sba_df = sba ∧ st.gl_df = gl :=
  run_preserves_inputs h

/-- Witness for C10 at a concrete run with no description columns. -/
theorem projector_preserves_inputs_witness :
    (⟨[("unique_id", [some "5"])], [("unique_id", [some "6"])],
      [("unique_id", [some "5"])], [("unique_id", [some "6"])]⟩ :
        ProjState).sba_df = [("unique_id", [some "5"])] ∧
    (⟨[("unique_id", [some "5"])], [("unique_id", [some "6"])],
      [("unique_id", [some "5"])], [("unique_id", [some "6"])]⟩ :
        ProjState).gl_df = [("unique_id", [some "6"])] :=
  projector_preserves_inputs [("unique_id", [some "5"])]
    [("unique_id", [some "6"])] _ rfl

/-- C7: running the projector a second time, on the input frames exactly as
the first successful run left them, yields the same successful state again, so
the two runs have identical output columns and row counts. -/
theorem projector_second_run_identical (sba gl : DataFrame) (st : ProjState)
    (h : create_comparison_df_run sba gl = Except.ok st) :
    create_comparison_df_run st.sba_df st.gl_df = Except.ok st := by
  rcases run_preserves_inputs h with ⟨h1, h2⟩
  rw [h1, h2]
  exact h

/-- Witness for C7 at a concrete run. -/
theorem projector_second_run_identical_witness :
    create_comparison_df_run
        ((⟨[("unique_id", [some "3"])], [("unique_id", [some "7"])],
          [("unique_id", [some "3"])], [("unique_id", [some "7"])]⟩ :
            ProjState).sba_df)
        ((⟨[("unique_id", [some "3"])], [("unique_id", [some "7"])],
          [("unique_id", [some "3"])], [("unique_id", [some "7"])]⟩ :
            ProjState).gl_df) =
      Except.ok (⟨[("unique_id", [some "3"])], [("unique_id", [some "7"])],
        [("unique_id", [some "3"])], [("unique_id", [some "7"])]⟩ : ProjState) :=
  projector_second_run_identical [("unique_id", [some "3"])]
    [("unique_id", [some "7"])] _ rfl

/-- C8: every column name produced by standardization consists only of
lowercase ASCII letters, digits and underscores (in particular spaces were
turned into underscores and removed characters cannot reappear) and contains
no two consecutive underscores. -/
theorem standardized_names_canonical (df : DataFrame) (name : String)
    (h : name ∈ colNames (standardize_column_names df)) :
    (∀ c ∈ name.data, isCanonChar c = true) ∧
    noDoubleUnderscore name.data = true := by
  unfold standardize_column_names colNames at h
  rw [List.map_map] at h
  rcases List.mem_map.mp h with ⟨p, _, hp⟩
  have hname : standardize_name p.1 = name := hp
  constructor
  · intro c hc
    rw [← hname] at hc
    have hc2 : c ∈ (((p.1.data.map pyLowerChar).map
        (fun c => if c == ' ' then '_' else c)).filter isWordChar) :=
      mem_of_mem_collapseUnderscores _ c hc
    rw [List.mem_filter] at hc2
    have hw : isWordChar c = true := hc2.2
    have hm := hc2.1
    rw [List.map_map] at hm
    rcases List.mem_map.mp hm with ⟨c0, _, hc0⟩
    have hu : ¬(65 ≤ c.toNat ∧ c.toNat ≤ 90) := by
      rw [← hc0]
      exact spaceFix_not_upper (pyLowerChar c0) (pyLowerChar_not_upper c0)
    exact isCanonChar_of_isWordChar hw hu
  · rw [← hname]
    exact noDoubleUnderscore_collapse _

/-- Witness for C8: the concrete column name produced from a raw header with
uppercase letters, a double space and a punctuation character. -/
theorem standardized_names_canonical_witness :
    noDoubleUnderscore ("first_name" : String).data = true :=
  (standardized_names_canonical [("First  Name#", [some "x"])] "first_name"
    (by decide)).2

/-- C1 (amended): for well-formed inputs that carry the unique identifier and
whose left side carries all four identity fields, the projector succeeds and
returns two frames with identical column lists (unique_id followed by one
hybrid column per identity and description field pair), row counts equal to
their respective inputs, the unique identifier carried through unchanged, and
for each pair the left column holding the identity field's values and the
right column holding the description field's values. -/
theorem hybrid_projector_shape (sba gl : DataFrame)
    (hwfs : wfDF sba) (hwfg : wfDF gl)
    (hsu : hasCol sba "unique_id" = true) (hgu : hasCol gl "unique_id" = true)
    (hsf : ∀ f ∈ sba_fields, hasCol sba f = true) :
    create_comparison_df sba gl =
      Except.ok (("unique_id", colOf sba "unique_id") :: pairColsL sba gl,
        ("unique_id", colOf gl "unique_id") :: pairColsR sba gl) ∧
    colNames (("unique_id", colOf sba "unique_id") :: pairColsL sba gl) =
      "unique_id" :: hybridNames (gl_desc_fields gl) ∧
    colNames (("unique_id", colOf gl "unique_id") :: pairColsR sba gl) =
      "unique_id" :: hybridNames (gl_desc_fields gl) ∧
    nRows (("unique_id", colOf sba "unique_id") :: pairColsL sba gl) =
      nRows sba ∧
    nRows (("unique_id", colOf gl "unique_id") :: pairColsR sba gl) =
      nRows gl ∧
    getCol (("unique_id", colOf sba "unique_id") :: pairColsL sba gl)
      "unique_id" = getCol sba "unique_id" ∧
    getCol (("unique_id", colOf gl "unique_id") :: pairColsR sba gl)
      "unique_id" = getCol gl "unique_id" ∧
    ∀ sf ∈ sba_fields, ∀ gd ∈ gl_desc_fields gl,
      getCol (("unique_id", colOf sba "unique_id") :: pairColsL sba gl)
          (hybridName sf gd) = getCol sba sf ∧
      getCol (("unique_id", colOf gl "unique_id") :: pairColsR sba gl)
          (hybridName sf gd) = getCol gl gd := by
  refine ⟨?_, ?_, ?_, ?_, ?_, ?_, ?_, ?_⟩
  · unfold create_comparison_df
    rw [run_ok_append sba gl hwfg.1 hsu hgu hsf]
    rfl
  · unfold colNames
    rw [List.map_cons, pairColsL_names]
  · unfold colNames
    rw [List.map_cons, pairColsR_names]
  · show (colOf sba "unique_id").length = nRows sba
    exact colOf_length_of_wf hwfs hsu
  · show (colOf gl "unique_id").length = nRows gl
    exact colOf_length_of_wf hwfg hgu
  · show some (colOf sba "unique_id") = getCol sba "unique_id"
    exact (getCol_eq_colOf hsu).symm
  · show some (colOf gl "unique_id") = getCol gl "unique_id"
    exact (getCol_eq_colOf hgu).symm
  · intro sf hs gd hgd
    constructor
    · exact (getCol_out_hybrid_L hwfg.1 hs hgd _).trans
        (getCol_eq_colOf (hsf sf hs)).symm
    · exact (getCol_out_hybrid_R hwfg.1 hs hgd _).trans
        (getCol_eq_colOf (gl_desc_fields_hasCol gd hgd)).symm

/-- Witness for C1 at concrete one-row frames carrying all required fields. -/
theorem hybrid_projector_shape_witness :
    create_comparison_df
        [("unique_id", [some "1"]), ("jobid", [some "j"]),
         ("clntname", [some "n"]), ("clntkey", [some "k"]),
         ("claccountid", [some "a"])]
        [("unique_id", [some "9"]), ("desc1", [some "d"])] =
      Except.ok
        (("unique_id", colOf
            [("unique_id", [some "1"]), ("jobid", [some "j"]),
             ("clntname", [some "n"]), ("clntkey", [some "k"]),
             ("claccountid", [some "a"])] "unique_id") ::
          pairColsL
            [("unique_id", [some "1"]), ("jobid", [some "j"]),
             ("clntname", [some "n"]), ("clntkey", [some "k"]),
             ("claccountid", [some "a"])]
            [("unique_id", [some "9"]), ("desc1", [some "d"])],
         ("unique_id", colOf
            [("unique_id", [some "9"]), ("desc1", [some "d"])] "unique_id") ::
          pairColsR
            [("unique_id", [some "1"]), ("jobid", [some "j"]),
             ("clntname", [some "n"]), ("clntkey", [some "k"]),
             ("claccountid", [some "a"])]
            [("unique_id", [some "9"]), ("desc1", [some "d"])]) :=
  (hybrid_projector_shape
    [("unique_id", [some "1"]), ("jobid", [some "j"]),
     ("clntname", [some "n"]), ("clntkey", [some "k"]),
     ("claccountid", [some "a"])]
    [("unique_id", [some "9"]), ("desc1", [some "d"])]
    (by decide) (by decide) (by decide) (by decide) (by decide)).1

/-- C1 (counterexample to the literal claim): both inputs carry unique_id and
the right input has a description field, yet the projector produces no output
RecordSets because the left input lacks the identity field jobid: the call
fails with the KeyError SchemaError on jobid. -/
theorem hybrid_projector_missing_identity_cex :
    hasCol [("unique_id", [some "1"])] "unique_id" = true ∧
    hasCol [("unique_id", [some "1"]), ("desc1", [some "x"])] "unique_id" =
      true ∧
    ∀ l r : DataFrame,
      create_comparison_df [("unique_id", [some "1"])]
        [("unique_id", [some "1"]), ("desc1", [some "x"])] ≠
        Except.ok (l, r) := by
  refine ⟨by decide, by decide, ?_⟩
  intro l r hcontra
  have hval : create_comparison_df [("unique_id", [some "1"])]
      [("unique_id", [some "1"]), ("desc1", [some "x"])] =
      Except.error (LinkError.schemaError "jobid") := rfl
  rw [hval] at hcontra
  cases hcontra
